import Mathlib

/-!
Verification of the txtr string-extraction engine.

This file is a shallow embedding of the `internal/extractor` package of the
txtr repository: the printability classifiers, the regex pattern filter, the
five encoding-specific scanners in both their streaming form (`ExtractStrings`
and the `extract*` readers) and their byte-slice form (the `*FromBytes`
functions used by the memory-mapped path), the adapter dispatch of
`extractStringsWithMmap`, and the pattern-compilation pipeline of `main`.

Conventions of the embedding:
- a Go `byte` is a `Nat` (values 0..255 in practice);
- a Go `rune` (int32) is an `Int`; the cast `rune(uint32)` is `int32ofUInt32`;
- a Go `int64` offset is an `Int`;
- an `io.Reader` that a streaming scanner consumes byte-by-byte is a
  `List Nat` holding the full input content;
- the `printFunc` callback is modelled by returning the ordered list of
  emitted `(bytes, offset)` pairs;
- compiled regular expressions are abstracted as match predicates
  `List Nat → Bool`, and `regexp.Compile` as an abstract parameter
  `compile : String → Option π` (regex semantics live outside the extractor);
- loops whose per-iteration consumption is variable are written with an
  explicit fuel argument that decreases every iteration; the top-level
  entry points supply fuel `data.length + 1`, and sufficiency of that fuel
  (= termination of the loop) is proved below.
-/

namespace Txtr

/-- An emitted run: the bytes handed to the print callback and the reported
start offset. -/
abbrev Emission := List Nat × Int

/-- An abstract compiled pattern: its match semantics on a candidate byte
string (models `(*regexp.Regexp).Match`). -/
abbrev Pattern := List Nat → Bool

/-- The extractor `Config` (extractor.go), restricted to the fields the
scanners and the filter read.  Output-formatting fields (`PrintFileName`,
`Radix`, `PrintOffset`, `OutputSeparator`, color, stats, mmap tuning) are
omitted: no scanner or filter branch consults them. -/
structure Config where
  minLength : Int
  encoding : String
  unicode : String
  includeAllWhitespace : Bool
  matchPatterns : List Pattern
  excludePatterns : List Pattern

/-! ## Printability classifiers (extractor.go `isPrintableASCII`,
`isPrintableRune`, `IsPrintable`) -/

/-- `isPrintableASCII` from extractor.go: whitespace exception first, then
the 7-bit range 32..126, then the 8-bit range 128..255. -/
def isPrintableASCII (b : Nat) (allow8bit includeAllWhitespace : Bool) : Bool :=
  if includeAllWhitespace = true ∧ (b = 9 ∨ b = 10 ∨ b = 13 ∨ b = 11 ∨ b = 12) then
    true
  else if 32 ≤ b ∧ b ≤ 126 then
    true
  else if allow8bit = true ∧ 128 ≤ b then
    true
  else
    false

/-- `IsPrintable` from extractor.go: the 7-bit classifier with both options
off. -/
def IsPrintable (b : Nat) : Bool :=
  isPrintableASCII b false false

/-- `isPrintableRune` from extractor.go: whitespace exception, then the four
printable codepoint ranges. -/
def isPrintableRune (r : Int) (includeAllWhitespace : Bool) : Bool :=
  if includeAllWhitespace = true ∧ (r = 9 ∨ r = 10 ∨ r = 13 ∨ r = 11 ∨ r = 12) then
    true
  else if 32 ≤ r ∧ r ≤ 126 then
    true
  else if 0xA0 ≤ r ∧ r ≤ 0xD7FF then
    true
  else if 0xE000 ≤ r ∧ r ≤ 0xFFFD then
    true
  else if 0x10000 ≤ r ∧ r ≤ 0x10FFFF then
    true
  else
    false

/-! ## Go standard-library helpers the scanners call -/

/-- The Go cast `rune(u)` applied to a `uint32` value: reinterpret as a
signed 32-bit integer. -/
def int32ofUInt32 (u : Nat) : Int :=
  if u < 0x80000000 then (u : Int) else (u : Int) - 0x100000000

/-- `unicode/utf16.IsSurrogate`: true for the whole surrogate block,
high and low halves alike. -/
def utf16IsSurrogate (r : Int) : Bool :=
  0xD800 ≤ r ∧ r < 0xE000

/-- `unicode/utf16.DecodeRune`: combine a high/low surrogate pair into a
supplementary-plane scalar; any other argument pair yields U+FFFD. -/
def utf16DecodeRune (r1 r2 : Int) : Int :=
  if 0xD800 ≤ r1 ∧ r1 < 0xDC00 ∧ 0xDC00 ≤ r2 ∧ r2 < 0xE000 then
    (r1 - 0xD800) * 0x400 + (r2 - 0xDC00) + 0x10000
  else
    0xFFFD

/-- `unicode/utf8.ValidRune`: a valid Unicode scalar value (in range and not
a surrogate). -/
def utf8ValidRune (r : Int) : Bool :=
  (0 ≤ r ∧ r < 0xD800) ∨ (0xDFFF < r ∧ r ≤ 0x10FFFF)

/-- UTF-8 encoding of one rune, as Go's `utf8.EncodeRune` (and hence
`string([]rune)`) performs it: surrogates, negatives and out-of-range
values encode as U+FFFD. -/
def utf8EncodeRune (r : Int) : List Nat :=
  if 0 ≤ r ∧ r < 0x80 then
    [r.toNat]
  else if 0 ≤ r ∧ r < 0x800 then
    [0xC0 + r.toNat / 0x40, 0x80 + r.toNat % 0x40]
  else if (0xD800 ≤ r ∧ r ≤ 0xDFFF) ∨ r < 0 ∨ 0x10FFFF < r then
    [0xEF, 0xBF, 0xBD]
  else if r < 0x10000 then
    [0xE0 + r.toNat / 0x1000, 0x80 + r.toNat / 0x40 % 0x40, 0x80 + r.toNat % 0x40]
  else
    [0xF0 + r.toNat / 0x40000, 0x80 + r.toNat / 0x1000 % 0x40,
      0x80 + r.toNat / 0x40 % 0x40, 0x80 + r.toNat % 0x40]

/-- The conversion `[]byte(string(currentRunes))` used when a UTF-16/UTF-32
run is emitted. -/
def runesToUTF8 (rs : List Int) : List Nat :=
  (rs.map utf8EncodeRune).flatten

/-- Decoding of one complete UTF-8 sequence, following Go's `utf8` accept
ranges: `some r` exactly when `utf8.Valid` holds of the group, in which case
`utf8.DecodeRune` returns `r` consuming the whole group.  (In
`extractUTF8Aware` the group always consists of a leading byte plus the
continuation bytes collected for it, so validity of the group is exactly
validity of its single sequence.) -/
def utf8DecodeGroup : List Nat → Option Int
  | [b] => if b < 0x80 then some (b : Int) else none
  | [b0, b1] =>
      if 0xC2 ≤ b0 ∧ b0 ≤ 0xDF ∧ 0x80 ≤ b1 ∧ b1 ≤ 0xBF then
        some (((b0 : Int) - 0xC0) * 0x40 + ((b1 : Int) - 0x80))
      else none
  | [b0, b1, b2] =>
      if ((b0 = 0xE0 ∧ 0xA0 ≤ b1 ∧ b1 ≤ 0xBF) ∨
          (0xE1 ≤ b0 ∧ b0 ≤ 0xEC ∧ 0x80 ≤ b1 ∧ b1 ≤ 0xBF) ∨
          (b0 = 0xED ∧ 0x80 ≤ b1 ∧ b1 ≤ 0x9F) ∨
          (0xEE ≤ b0 ∧ b0 ≤ 0xEF ∧ 0x80 ≤ b1 ∧ b1 ≤ 0xBF)) ∧
         0x80 ≤ b2 ∧ b2 ≤ 0xBF then
        some (((b0 : Int) - 0xE0) * 0x1000 + ((b1 : Int) - 0x80) * 0x40 + ((b2 : Int) - 0x80))
      else none
  | [b0, b1, b2, b3] =>
      if ((b0 = 0xF0 ∧ 0x90 ≤ b1 ∧ b1 ≤ 0xBF) ∨
          (0xF1 ≤ b0 ∧ b0 ≤ 0xF3 ∧ 0x80 ≤ b1 ∧ b1 ≤ 0xBF) ∨
          (b0 = 0xF4 ∧ 0x80 ≤ b1 ∧ b1 ≤ 0x8F)) ∧
         0x80 ≤ b2 ∧ b2 ≤ 0xBF ∧ 0x80 ≤ b3 ∧ b3 ≤ 0xBF then
        some (((b0 : Int) - 0xF0) * 0x40000 + ((b1 : Int) - 0x80) * 0x1000 +
          ((b2 : Int) - 0x80) * 0x40 + ((b3 : Int) - 0x80))
      else none
  | _ => none

/-- `encoding/binary` `ByteOrder.Uint16` over a 2-byte window, for the two
byte orders used by the dispatchers. -/
inductive ByteOrder
  | big
  | little
deriving DecidableEq

def decodeU16 : ByteOrder → Nat → Nat → Nat
  | .big, b0, b1 => b0 * 256 + b1
  | .little, b0, b1 => b1 * 256 + b0

def decodeU32 : ByteOrder → Nat → Nat → Nat → Nat → Nat
  | .big, b0, b1, b2, b3 => ((b0 * 256 + b1) * 256 + b2) * 256 + b3
  | .little, b0, b1, b2, b3 => ((b3 * 256 + b2) * 256 + b1) * 256 + b0

/-! ## Pattern filter (internal/extractor/filter.go) -/

/-- The early-return loops `for _, pattern := range ... { if pattern.Match(str) ... }`. -/
def anyMatch (ps : List Pattern) (str : List Nat) : Bool :=
  ps.any (fun p => p str)

/-- `ShouldPrintString` from filter.go: exclude patterns are consulted first
and any hit returns false; then a non-empty match set requires at least one
hit; with no patterns everything passes. -/
def ShouldPrintString (str : List Nat) (cfg : Config) : Bool :=
  if 0 < cfg.excludePatterns.length ∧ anyMatch cfg.excludePatterns str = true then
    false
  else if 0 < cfg.matchPatterns.length then
    anyMatch cfg.matchPatterns str
  else
    true

/-- The pattern error produced by `CompilePatterns`: the Go code formats
`"invalid pattern #%d (%q): %w"` from the 1-based index `i+1` and the
original (unmodified) pattern text `patterns[i]`. -/
structure PatternError where
  index : Nat
  text : String
deriving DecidableEq

/-- The case-insensitivity rewrite applied before compilation:
`pattern = "(?i)" + pattern`. -/
def addCase (ignoreCase : Bool) (p : String) : String :=
  if ignoreCase then "(?i)" ++ p else p

/-- The `for i, pattern := range patterns` loop body of `CompilePatterns`,
parameterised over the abstract regex compiler; `k` is the number of
patterns already consumed, so the reported index stays 1-based over the
original list. -/
def compileLoop {π : Type} (compile : String → Option π) (ignoreCase : Bool) :
    List String → Nat → Except PatternError (List π)
  | [], _ => .ok []
  | p :: rest, k =>
      match compile (addCase ignoreCase p) with
      | none => .error ⟨k + 1, p⟩
      | some re =>
          match compileLoop compile ignoreCase rest (k + 1) with
          | .error e => .error e
          | .ok l => .ok (re :: l)

/-- `CompilePatterns` from filter.go: empty input compiles to the empty set,
otherwise every pattern is compiled in order and the first failure aborts
with a `PatternError`; no compiled set accompanies an error. -/
def CompilePatterns {π : Type} (compile : String → Option π)
    (patterns : List String) (ignoreCase : Bool) : Except PatternError (List π) :=
  if patterns.length = 0 then .ok []
  else compileLoop compile ignoreCase patterns 0

/-! ## ASCII scanners -/

/-- The byte loop of `extractASCII` (extractor.go lines 56-90): accumulate
printable bytes, flush when a non-printable byte arrives or at end of
input.  Arguments: remaining input, current offset, recorded run start,
accumulated run. -/
def asciiLoop (cfg : Config) (allow8bit : Bool) :
    List Nat → Int → Int → List Nat → List Emission
  | [], _, start, cur =>
      if cfg.minLength ≤ (cur.length : Int) then [(cur, start)] else []
  | b :: rest, offset, start, cur =>
      if isPrintableASCII b allow8bit cfg.includeAllWhitespace then
        asciiLoop cfg allow8bit rest (offset + 1)
          (if cur.length = 0 then offset else start) (cur ++ [b])
      else
        (if cfg.minLength ≤ (cur.length : Int) then [(cur, start)] else []) ++
          asciiLoop cfg allow8bit rest (offset + 1) start []

/-- `extractASCIIFromBytes` from the mmap adapter: the same accumulate/flush
loop over a byte slice, with run starts at `baseOffset + i`, and a final
flush after the loop. -/
def asciiBytesLoop (cfg : Config) (allow8bit : Bool) (baseOffset : Int) :
    List Nat → Int → Int → List Nat → List Emission
  | [], _, start, cur =>
      if cfg.minLength ≤ (cur.length : Int) then [(cur, start)] else []
  | b :: rest, i, start, cur =>
      if isPrintableASCII b allow8bit cfg.includeAllWhitespace then
        asciiBytesLoop cfg allow8bit baseOffset rest (i + 1)
          (if cur.length = 0 then baseOffset + i else start) (cur ++ [b])
      else
        (if cfg.minLength ≤ (cur.length : Int) then [(cur, start)] else []) ++
          asciiBytesLoop cfg allow8bit baseOffset rest (i + 1) start []

def extractASCIIFromBytes (data : List Nat) (baseOffset : Int) (cfg : Config)
    (allow8bit : Bool) : List Emission :=
  asciiBytesLoop cfg allow8bit baseOffset data 0 0 []

/-! ## UTF-8-aware scanner (`extractUTF8Aware`, extractor.go lines 93-201) -/

/-- The `expectedBytes` computation from the leading byte's high bits:
number of continuation bytes of the announced sequence (0 when the byte is
not a recognised sequence leader). -/
def utf8ExpectedBytes (b : Nat) : Nat :=
  if b &&& 0xE0 = 0xC0 then 1
  else if b &&& 0xF0 = 0xE0 then 2
  else if b &&& 0xF8 = 0xF0 then 3
  else 0

/-- A UTF-8 continuation byte test, `nextByte & 0xC0 == 0x80`. -/
def isContByte (b : Nat) : Bool :=
  b &&& 0xC0 = 0x80

/-- The continuation-byte read loop of `extractUTF8Aware`: read up to `n`
bytes; a successfully read continuation byte stays consumed; a read byte
that is not a continuation byte is pushed back (`UnreadByte`) and the
sequence is invalid; running out of input mid-sequence is likewise invalid.
Returns (consumed continuation bytes, remaining input, valid). -/
def readContBytes : Nat → List Nat → List Nat × List Nat × Bool
  | 0, rest => ([], rest, true)
  | _ + 1, [] => ([], [], false)
  | n + 1, b :: rest =>
      if isContByte b then
        match readContBytes n rest with
        | (taken, rem, ok) => (b :: taken, rem, ok)
      else
        ([], b :: rest, false)

/-- ASCII bytes of the lowercase-hex rendering of `n` padded to width `w`,
as `fmt.Sprintf` renders `%04x` / `%02x`. -/
def hexDigitByte (n : Nat) : Nat :=
  if n < 10 then 48 + n else 87 + n

def hexBytesAux : Nat → Nat → List Nat
  | 0, _ => []
  | fuel + 1, n =>
      if n = 0 then [] else hexBytesAux fuel (n / 16) ++ [hexDigitByte (n % 16)]

def hexBytes (n w : Nat) : List Nat :=
  let ds := hexBytesAux 16 n
  List.replicate (w - ds.length) 48 ++ ds

/-- The display form appended to `currentOutput` for an accepted multi-byte
rune, per Unicode mode: raw bytes (locale/default), `\uXXXX` (escape),
`<xx>` (hex), or an ANSI-bold-wrapped escape (highlight). -/
def displayForm (mode : String) (r : Int) (runeBytes : List Nat) : List Nat :=
  match mode with
  | "locale" => runeBytes
  | "escape" => [92, 117] ++ hexBytes r.toNat 4
  | "hex" => [60] ++ hexBytes r.toNat 2 ++ [62]
  | "highlight" => [27, 91, 49, 109, 92, 117] ++ hexBytes r.toNat 4 ++ [27, 91, 48, 109]
  | _ => runeBytes

/-- The main loop of `extractUTF8Aware`.  State: fuel, remaining input,
offset, recorded run start, accumulated input bytes (`currentString`),
accumulated display bytes (`currentOutput`).  Each iteration consumes at
least one input byte, so fuel `data.length + 1` always suffices (proved in
`utf8AwareLoopF_isSome`). -/
def utf8AwareLoopF (cfg : Config) :
    Nat → List Nat → Int → Int → List Nat → List Nat → Option (List Emission)
  | 0, _, _, _, _, _ => none
  | _ + 1, [], _, start, curIn, curOut =>
      some (if cfg.minLength ≤ (curIn.length : Int) then [(curOut, start)] else [])
  | fuel + 1, b :: rest, offset, start, curIn, curOut =>
      if b < 128 then
        if isPrintableASCII b false cfg.includeAllWhitespace then
          utf8AwareLoopF cfg fuel rest (offset + 1)
            (if curIn.length = 0 then offset else start)
            (curIn ++ [b]) (curOut ++ [b])
        else
          (utf8AwareLoopF cfg fuel rest (offset + 1) start [] []).map
            (fun l =>
              (if cfg.minLength ≤ (curIn.length : Int) then [(curOut, start)] else []) ++ l)
      else
        match readContBytes (utf8ExpectedBytes b) rest with
        | (taken, rem, ok) =>
          let runeBytes := b :: taken
          let offset2 := offset + (taken.length : Int)
          if ok then
            match utf8DecodeGroup runeBytes with
            | some r =>
                if isPrintableRune r cfg.includeAllWhitespace then
                  utf8AwareLoopF cfg fuel rem (offset2 + 1)
                    (if curIn.length = 0 then offset2 - (runeBytes.length : Int) + 1 else start)
                    (curIn ++ runeBytes) (curOut ++ displayForm cfg.unicode r runeBytes)
                else
                  (utf8AwareLoopF cfg fuel rem (offset2 + 1) start [] []).map
                    (fun l =>
                      (if cfg.minLength ≤ (curIn.length : Int) then [(curOut, start)] else []) ++ l)
            | none =>
                (utf8AwareLoopF cfg fuel rem (offset2 + 1) start [] []).map
                  (fun l =>
                    (if cfg.minLength ≤ (curIn.length : Int) then [(curOut, start)] else []) ++ l)
          else
            (utf8AwareLoopF cfg fuel rem (offset2 + 1) start [] []).map
              (fun l =>
                (if cfg.minLength ≤ (curIn.length : Int) then [(curOut, start)] else []) ++ l)

/-- `extractUTF8Aware`: run the loop from offset 0 with empty accumulators. -/
def extractUTF8Aware (data : List Nat) (cfg : Config) : List Emission :=
  (utf8AwareLoopF cfg (data.length + 1) data 0 0 [] []).getD []

/-- `extractASCII` (extractor.go lines 49-90): when the Unicode mode is
anything other than default/invalid/empty the scan is delegated to the
UTF-8-aware scanner before `allow8bit` is ever consulted. -/
def extractASCII (data : List Nat) (cfg : Config) (allow8bit : Bool) : List Emission :=
  if cfg.unicode ≠ "default" ∧ cfg.unicode ≠ "invalid" ∧ cfg.unicode ≠ "" then
    extractUTF8Aware data cfg
  else
    asciiLoop cfg allow8bit data 0 0 []

/-! ## UTF-16 scanner (`extractUTF16`, extractor.go lines 204-255) -/

/-- The reads performed by one iteration of the `extractUTF16` loop after
the first two bytes `b0 b1` succeeded, with `rest` the input behind them.
If the decoded unit is a surrogate (high or low — `utf16.IsSurrogate`
accepts both), a second `io.ReadFull` is attempted: with two bytes
available it consumes them, combines via `utf16.DecodeRune`, and the
pre-classification `offset += 2` fires (third component true); with exactly
one byte left that byte is consumed by the failed read and no combination
or extra offset increment happens; with no byte left likewise.  Returns
(classified rune, remaining input, whether the extra unit was consumed and
combined). -/
def utf16ReadUnit (bo : ByteOrder) (b0 b1 : Nat) (rest : List Nat) :
    Int × List Nat × Bool :=
  let r0 : Int := (decodeU16 bo b0 b1 : Int)
  if utf16IsSurrogate r0 then
    match rest with
    | b2 :: b3 :: rest2 => (utf16DecodeRune r0 ((decodeU16 bo b2 b3 : Nat) : Int), rest2, true)
    | [_] => (r0, [], false)
    | [] => (r0, [], false)
  else
    (r0, rest, false)

/-- The `extractUTF16` loop.  Fewer than two remaining bytes means
`io.ReadFull` fails with EOF/ErrUnexpectedEOF: flush the pending run and
stop.  Otherwise classify the rune delivered by `utf16ReadUnit`; note that
the accepted-run start is the offset *after* the surrogate-pair
`offset += 2`, exactly as in the source. -/
def utf16LoopF (cfg : Config) (bo : ByteOrder) :
    Nat → List Nat → Int → Int → List Int → Option (List Emission)
  | 0, _, _, _, _ => none
  | fuel + 1, b0 :: b1 :: rest, offset, start, cur =>
      match utf16ReadUnit bo b0 b1 rest with
      | (r, rest2, combined) =>
        let offC := if combined then offset + 2 else offset
        if isPrintableRune r cfg.includeAllWhitespace then
          utf16LoopF cfg bo fuel rest2 (offC + 2)
            (if cur.length = 0 then offC else start) (cur ++ [r])
        else
          (utf16LoopF cfg bo fuel rest2 (offC + 2) start []).map
            (fun l =>
              (if cfg.minLength ≤ (cur.length : Int) then [(runesToUTF8 cur, start)] else []) ++ l)
  | _ + 1, data, _, start, cur =>
      match data with
      | _ => some (if cfg.minLength ≤ (cur.length : Int) then [(runesToUTF8 cur, start)] else [])

def extractUTF16 (data : List Nat) (cfg : Config) (bo : ByteOrder) : List Emission :=
  (utf16LoopF cfg bo (data.length + 1) data 0 0 []).getD []

/-! ## UTF-32 scanner (`extractUTF32`, extractor.go lines 258-298) -/

/-- The `extractUTF32` loop: read 4 bytes, cast through `rune(uint32)`,
accept when printable and a valid scalar; fewer than 4 remaining bytes is
a failed `io.ReadFull`: flush and stop. -/
def utf32LoopF (cfg : Config) (bo : ByteOrder) :
    Nat → List Nat → Int → Int → List Int → Option (List Emission)
  | 0, _, _, _, _ => none
  | fuel + 1, b0 :: b1 :: b2 :: b3 :: rest, offset, start, cur =>
      let r := int32ofUInt32 (decodeU32 bo b0 b1 b2 b3)
      if isPrintableRune r cfg.includeAllWhitespace = true ∧ utf8ValidRune r = true then
        utf32LoopF cfg bo fuel rest (offset + 4)
          (if cur.length = 0 then offset else start) (cur ++ [r])
      else
        (utf32LoopF cfg bo fuel rest (offset + 4) start []).map
          (fun l =>
            (if cfg.minLength ≤ (cur.length : Int) then [(runesToUTF8 cur, start)] else []) ++ l)
  | _ + 1, data, _, start, cur =>
      match data with
      | _ => some (if cfg.minLength ≤ (cur.length : Int) then [(runesToUTF8 cur, start)] else [])

def extractUTF32 (data : List Nat) (cfg : Config) (bo : ByteOrder) : List Emission :=
  (utf32LoopF cfg bo (data.length + 1) data 0 0 []).getD []

/-! ## Byte-slice scanners of the mmap path -/

/-- `extractUTF16FromBytes`: the `for i := 0; i < len(data)-1; i += 2` loop.
Each 2-byte unit is classified directly; no surrogate-pair combination is
attempted. -/
def utf16BytesLoop (cfg : Config) (bo : ByteOrder) (baseOffset : Int) :
    List Nat → Int → Int → List Int → List Emission
  | b0 :: b1 :: rest, i, start, cur =>
      let r : Int := (decodeU16 bo b0 b1 : Int)
      if isPrintableRune r cfg.includeAllWhitespace then
        utf16BytesLoop cfg bo baseOffset rest (i + 2)
          (if cur.length = 0 then baseOffset + i else start) (cur ++ [r])
      else
        (if cfg.minLength ≤ (cur.length : Int) then [(runesToUTF8 cur, start)] else []) ++
          utf16BytesLoop cfg bo baseOffset rest (i + 2) start []
  | _, _, start, cur =>
      if cfg.minLength ≤ (cur.length : Int) then [(runesToUTF8 cur, start)] else []

def extractUTF16FromBytes (data : List Nat) (baseOffset : Int) (cfg : Config)
    (bo : ByteOrder) : List Emission :=
  utf16BytesLoop cfg bo baseOffset data 0 0 []

/-- `extractUTF32FromBytes`: the `for i := 0; i < len(data)-3; i += 4` loop. -/
def utf32BytesLoop (cfg : Config) (bo : ByteOrder) (baseOffset : Int) :
    List Nat → Int → Int → List Int → List Emission
  | b0 :: b1 :: b2 :: b3 :: rest, i, start, cur =>
      let r := int32ofUInt32 (decodeU32 bo b0 b1 b2 b3)
      if isPrintableRune r cfg.includeAllWhitespace = true ∧ utf8ValidRune r = true then
        utf32BytesLoop cfg bo baseOffset rest (i + 4)
          (if cur.length = 0 then baseOffset + i else start) (cur ++ [r])
      else
        (if cfg.minLength ≤ (cur.length : Int) then [(runesToUTF8 cur, start)] else []) ++
          utf32BytesLoop cfg bo baseOffset rest (i + 4) start []
  | _, _, start, cur =>
      if cfg.minLength ≤ (cur.length : Int) then [(runesToUTF8 cur, start)] else []

def extractUTF32FromBytes (data : List Nat) (baseOffset : Int) (cfg : Config)
    (bo : ByteOrder) : List Emission :=
  utf32BytesLoop cfg bo baseOffset data 0 0 []

/-- The total-byte sequence length (2/3/4, or 0 for a non-leader) computed
by `extractUTF8AwareFromBytes`. -/
def utf8SeqLen (b : Nat) : Nat :=
  if b &&& 0xE0 = 0xC0 then 2
  else if b &&& 0xF0 = 0xE0 then 3
  else if b &&& 0xF8 = 0xF0 then 4
  else 0

/-- `extractUTF8AwareFromBytes` (mmap adapter): byte-indexed loop.  A byte
`≥ 0x80` starting a sequence with enough bytes and valid continuation bytes
is accepted whole (no rune-printability, overlong or surrogate check, and
the display mode is ignored); otherwise the single byte is treated as
non-printable.  Single-byte classification uses
`config.Encoding == "S"` as `allow8bit`.  Flushes are gated by
`ShouldPrintString`.  Fuel decreases every iteration; each iteration
consumes ≥ 1 byte. -/
def utf8AwareBytesLoopF (cfg : Config) :
    Nat → List Nat → Int → Int → List Nat → Option (List Emission)
  | 0, _, _, _, _ => none
  | _ + 1, [], _, start, cur =>
      some (if cfg.minLength ≤ (cur.length : Int) ∧ ShouldPrintString cur cfg = true then
        [(cur, start)] else [])
  | fuel + 1, b :: rest, i, start, cur =>
      if 0x80 ≤ b then
        let seqLen := utf8SeqLen b
        if 0 < seqLen ∧ seqLen - 1 ≤ rest.length ∧
            (rest.take (seqLen - 1)).all isContByte = true then
          utf8AwareBytesLoopF cfg fuel (rest.drop (seqLen - 1)) (i + (seqLen : Int))
            (if cur.length = 0 then i else start) (cur ++ b :: rest.take (seqLen - 1))
        else
          (utf8AwareBytesLoopF cfg fuel rest (i + 1) start []).map
            (fun l =>
              (if cfg.minLength ≤ (cur.length : Int) ∧ ShouldPrintString cur cfg = true then
                [(cur, start)] else []) ++ l)
      else
        if isPrintableASCII b (cfg.encoding == "S") cfg.includeAllWhitespace then
          utf8AwareBytesLoopF cfg fuel rest (i + 1)
            (if cur.length = 0 then i else start) (cur ++ [b])
        else
          (utf8AwareBytesLoopF cfg fuel rest (i + 1) start []).map
            (fun l =>
              (if cfg.minLength ≤ (cur.length : Int) ∧ ShouldPrintString cur cfg = true then
                [(cur, start)] else []) ++ l)

def extractUTF8AwareFromBytes (data : List Nat) (cfg : Config) : List Emission :=
  (utf8AwareBytesLoopF cfg (data.length + 1) data 0 0 []).getD []

/-! ## Dispatchers -/

/-- `ExtractStrings` (extractor.go lines 29-46): the streaming path's
encoding dispatch; unknown encodings fall back to 7-bit ASCII. -/
def ExtractStrings (data : List Nat) (cfg : Config) : List Emission :=
  match cfg.encoding with
  | "s" => extractASCII data cfg false
  | "S" => extractASCII data cfg true
  | "b" => extractUTF16 data cfg .big
  | "l" => extractUTF16 data cfg .little
  | "B" => extractUTF32 data cfg .big
  | "L" => extractUTF32 data cfg .little
  | _ => extractASCII data cfg false

/-- The scanning stage of `extractStringsWithMmap` (mmap adapter), applied
to the materialised file contents: dispatch to the `*FromBytes` scanners
with base offset 0; an unknown encoding is an error (`none`). -/
def extractStringsWithMmapScan (data : List Nat) (cfg : Config) :
    Option (List Emission) :=
  match cfg.encoding with
  | "s" =>
      if cfg.unicode ≠ "" ∧ cfg.unicode ≠ "default" ∧ cfg.unicode ≠ "invalid" then
        some (extractUTF8AwareFromBytes data cfg)
      else
        some (extractASCIIFromBytes data 0 cfg false)
  | "S" => some (extractASCIIFromBytes data 0 cfg true)
  | "b" => some (extractUTF16FromBytes data 0 cfg .big)
  | "l" => some (extractUTF16FromBytes data 0 cfg .little)
  | "B" => some (extractUTF32FromBytes data 0 cfg .big)
  | "L" => some (extractUTF32FromBytes data 0 cfg .little)
  | _ => none

/-! ## The pattern-compilation stage of `main` (cmd/txtr/main.go) -/

/-- The ordering of `main`: match patterns are compiled, then exclude
patterns, and only then is any input scanned; a compile failure aborts with
the `PatternError` and no scan output.  The per-file scan is the streaming
dispatch; file contents are passed as byte lists (open errors are per-file
and out of scope of this stage). -/
def runMain {π : Type} (toPattern : π → Pattern) (compile : String → Option π)
    (matchPats exclPats : List String) (ignoreCase : Bool)
    (cfg0 : Config) (files : List (List Nat)) :
    Except PatternError (List (List Emission)) :=
  match (if 0 < matchPats.length then CompilePatterns compile matchPats ignoreCase
         else .ok []) with
  | .error e => .error e
  | .ok m =>
    match (if 0 < exclPats.length then CompilePatterns compile exclPats ignoreCase
           else .ok []) with
    | .error e => .error e
    | .ok x =>
      let cfg : Config :=
        ⟨cfg0.minLength, cfg0.encoding, cfg0.unicode, cfg0.includeAllWhitespace,
          m.map toPattern, x.map toPattern⟩
      .ok (files.map (fun d => ExtractStrings d cfg))

/-! ## Reference definitions written from the spec's words (for the
refinement comparisons), and concrete configurations used by the
closed theorems below -/

/-- The spec's byte-printability reference rule (spec section 4.1): the 7-bit
range, or the 8-bit extension, or the whitespace exception. -/
def isPrintableByteSpec (b : Nat) (allow8Bit includeAllWhitespace : Bool) : Bool :=
  decide ((32 ≤ b ∧ b ≤ 126) ∨ (allow8Bit = true ∧ 128 ≤ b) ∨
    (includeAllWhitespace = true ∧ (b = 9 ∨ b = 10 ∨ b = 13 ∨ b = 11 ∨ b = 12)))

/-- The spec's codepoint-printability reference rule (spec section 4.1):
the four scalar ranges plus the whitespace exception; the surrogate block
falls in no range. -/
def isPrintableCodepointSpec (r : Int) (includeAllWhitespace : Bool) : Bool :=
  decide ((32 ≤ r ∧ r ≤ 126) ∨ (0xA0 ≤ r ∧ r ≤ 0xD7FF) ∨ (0xE000 ≤ r ∧ r ≤ 0xFFFD) ∨
    (0x10000 ≤ r ∧ r ≤ 0x10FFFF) ∨
    (includeAllWhitespace = true ∧ (r = 9 ∨ r = 10 ∨ r = 13 ∨ r = 11 ∨ r = 12)))

/-- A high (leading) surrogate in the sense of the spec's UTF-16 clause. -/
def isHighSurrogate (r : Int) : Bool :=
  0xD800 ≤ r ∧ r < 0xDC00

/-- UTF-16LE, minimum length 1, default Unicode mode. -/
def cfg16LE : Config := ⟨1, "l", "default", false, [], []⟩

/-- UTF-16LE, minimum length 4, default Unicode mode. -/
def cfgL4 : Config := ⟨4, "l", "default", false, [], []⟩

/-- 7-bit ASCII, minimum length 4, default Unicode mode. -/
def cfgA : Config := ⟨4, "s", "default", false, [], []⟩

/-- 8-bit ASCII with Unicode mode `locale`, minimum length 4. -/
def cfgSloc : Config := ⟨4, "S", "locale", false, [], []⟩

/-- 7-bit ASCII with Unicode mode `locale`, minimum length 3. -/
def cfgLoc3 : Config := ⟨3, "s", "locale", false, [], []⟩

/-- 7-bit ASCII with Unicode mode `escape`, minimum length 7. -/
def cfgEsc7 : Config := ⟨7, "s", "escape", false, [], []⟩

/-- A configuration whose exclude set and match set both hit the candidate
`[1, 2, 3]`: the match pattern accepts everything, the exclude pattern
accepts length-3 candidates. -/
def cfgBothPatterns : Config :=
  ⟨1, "s", "default", false, [fun _ => true], [fun s => decide (s.length = 3)]⟩

/-- An abstract regex compiler that rejects exactly the text "b@d". -/
def compileRejectingBad : String → Option Nat :=
  fun s => if s = "b@d" then none else some 0

/-! ## Helper lemmas -/

theorem isSome_map {α β : Type} (f : α → β) (o : Option α) :
    (o.map f).isSome = o.isSome := by
  cases o <;> rfl

theorem utf16ReadUnit_length (bo : ByteOrder) (b0 b1 : Nat) (rest : List Nat) :
    (utf16ReadUnit bo b0 b1 rest).2.1.length ≤ rest.length := by
  match rest with
  | [] =>
      by_cases h : utf16IsSurrogate ((decodeU16 bo b0 b1 : Nat) : Int) = true <;>
        simp [utf16ReadUnit, h]
  | [x] =>
      by_cases h : utf16IsSurrogate ((decodeU16 bo b0 b1 : Nat) : Int) = true <;>
        simp [utf16ReadUnit, h]
  | a :: b :: t =>
      by_cases h : utf16IsSurrogate ((decodeU16 bo b0 b1 : Nat) : Int) = true
      · simp [utf16ReadUnit, h]
        omega
      · simp [utf16ReadUnit, h]

theorem readContBytes_length : ∀ (n : Nat) (l : List Nat),
    (readContBytes n l).2.1.length ≤ l.length := by
  intro n
  induction n with
  | zero => intro l; simp [readContBytes]
  | succ m ih =>
    intro l
    match l with
    | [] => simp [readContBytes]
    | b :: rest =>
      simp only [readContBytes]
      split
      · rcases hrc : readContBytes m rest with ⟨taken, rem, ok⟩
        have := ih rest
        rw [hrc] at this
        simp at this ⊢
        omega
      · simp

/-- The UTF-16 streaming loop consumes at least two bytes per iteration, so
fuel exceeding the input length always delivers a result. -/
theorem utf16LoopF_isSome (cfg : Config) (bo : ByteOrder) :
    ∀ (fuel : Nat) (data : List Nat) (offset start : Int) (cur : List Int),
      data.length < fuel →
      (utf16LoopF cfg bo fuel data offset start cur).isSome = true := by
  intro fuel
  induction fuel with
  | zero => intro data _ _ _ h; exact absurd h (Nat.not_lt_zero _)
  | succ n ih =>
    intro data offset start cur h
    match data with
    | [] => simp [utf16LoopF]
    | [b] => simp [utf16LoopF]
    | b0 :: b1 :: rest =>
      have hlen := utf16ReadUnit_length bo b0 b1 rest
      simp only [utf16LoopF]
      rcases hru : utf16ReadUnit bo b0 b1 rest with ⟨r, rest2, combined⟩
      rw [hru] at hlen
      simp only at hlen
      have hr2 : rest2.length < n := by simp at h; omega
      dsimp only
      split
      · exact ih rest2 _ _ _ hr2
      · rw [isSome_map]
        exact ih rest2 _ _ _ hr2

/-- The UTF-32 streaming loop consumes four bytes per iteration. -/
theorem utf32LoopF_isSome (cfg : Config) (bo : ByteOrder) :
    ∀ (fuel : Nat) (data : List Nat) (offset start : Int) (cur : List Int),
      data.length < fuel →
      (utf32LoopF cfg bo fuel data offset start cur).isSome = true := by
  intro fuel
  induction fuel with
  | zero => intro data _ _ _ h; exact absurd h (Nat.not_lt_zero _)
  | succ n ih =>
    intro data offset start cur h
    match data with
    | [] => simp [utf32LoopF]
    | [_] => simp [utf32LoopF]
    | [_, _] => simp [utf32LoopF]
    | [_, _, _] => simp [utf32LoopF]
    | b0 :: b1 :: b2 :: b3 :: rest =>
      have hr : rest.length < n := by simp at h; omega
      simp only [utf32LoopF]
      split
      · exact ih rest _ _ _ hr
      · rw [isSome_map]
        exact ih rest _ _ _ hr

/-- The UTF-8-aware streaming loop consumes at least one byte per iteration. -/
theorem utf8AwareLoopF_isSome (cfg : Config) :
    ∀ (fuel : Nat) (data : List Nat) (offset start : Int) (curIn curOut : List Nat),
      data.length < fuel →
      (utf8AwareLoopF cfg fuel data offset start curIn curOut).isSome = true := by
  intro fuel
  induction fuel with
  | zero => intro data _ _ _ _ h; exact absurd h (Nat.not_lt_zero _)
  | succ n ih =>
    intro data offset start curIn curOut h
    match data with
    | [] => simp [utf8AwareLoopF]
    | b :: rest =>
      have hrest : rest.length < n := by simp at h; omega
      simp only [utf8AwareLoopF]
      by_cases hb : b < 128
      · rw [if_pos hb]
        split
        · exact ih rest _ _ _ _ hrest
        · rw [isSome_map]
          exact ih rest _ _ _ _ hrest
      · rw [if_neg hb]
        rcases hrc : readContBytes (utf8ExpectedBytes b) rest with ⟨taken, rem, ok⟩
        have hrem : rem.length < n := by
          have := readContBytes_length (utf8ExpectedBytes b) rest
          rw [hrc] at this
          simp at this
          omega
        dsimp only
        split
        · split
          · split
            · exact ih rem _ _ _ _ hrem
            · rw [isSome_map]
              exact ih rem _ _ _ _ hrem
          · rw [isSome_map]
            exact ih rem _ _ _ _ hrem
        · rw [isSome_map]
          exact ih rem _ _ _ _ hrem

theorem utf8AwareLoopF_eq_some (cfg : Config) (data : List Nat) :
    utf8AwareLoopF cfg (data.length + 1) data 0 0 [] [] =
      some (extractUTF8Aware data cfg) := by
  have h := utf8AwareLoopF_isSome cfg (data.length + 1) data 0 0 [] [] (by omega)
  obtain ⟨v, hv⟩ := Option.isSome_iff_exists.mp h
  rw [hv]
  simp [extractUTF8Aware, hv]

theorem utf16LoopF_eq_some (cfg : Config) (bo : ByteOrder) (data : List Nat) :
    utf16LoopF cfg bo (data.length + 1) data 0 0 [] =
      some (extractUTF16 data cfg bo) := by
  have h := utf16LoopF_isSome cfg bo (data.length + 1) data 0 0 [] (by omega)
  obtain ⟨v, hv⟩ := Option.isSome_iff_exists.mp h
  rw [hv]
  simp [extractUTF16, hv]

theorem utf32LoopF_eq_some (cfg : Config) (bo : ByteOrder) (data : List Nat) :
    utf32LoopF cfg bo (data.length + 1) data 0 0 [] =
      some (extractUTF32 data cfg bo) := by
  have h := utf32LoopF_isSome cfg bo (data.length + 1) data 0 0 [] (by omega)
  obtain ⟨v, hv⟩ := Option.isSome_iff_exists.mp h
  rw [hv]
  simp [extractUTF32, hv]

/-- In `locale` mode the display accumulator coincides with the input-byte
accumulator, so every run the loop emits carries at least `minLength`
bytes.  The statement threads one list for both accumulators. -/
theorem utf8AwareLoopF_locale_minLength (cfg : Config) (hu : cfg.unicode = "locale") :
    ∀ (fuel : Nat) (data : List Nat) (offset start : Int) (cur : List Nat)
      (res : List Emission),
      utf8AwareLoopF cfg fuel data offset start cur cur = some res →
      ∀ e ∈ res, cfg.minLength ≤ (e.1.length : Int) := by
  intro fuel
  induction fuel with
  | zero => intro data offset start cur res h; simp [utf8AwareLoopF] at h
  | succ n ih =>
    intro data offset start cur res h e he
    match data with
    | [] =>
      simp only [utf8AwareLoopF, Option.some_inj] at h
      split at h
      · subst h
        simp only [List.mem_singleton] at he
        subst he
        assumption
      · subst h
        simp at he
    | b :: rest =>
      simp only [utf8AwareLoopF] at h
      by_cases hb : b < 128
      · rw [if_pos hb] at h
        split at h
        · exact ih rest _ _ (cur ++ [b]) res h e he
        · obtain ⟨l, hl, hres⟩ := Option.map_eq_some'.mp h
          rcases List.mem_append.mp (hres ▸ he) with hmem | hmem
          · split at hmem
            · simp only [List.mem_singleton] at hmem
              subst hmem
              assumption
            · simp at hmem
          · exact ih rest _ _ [] l hl e hmem
      · rw [if_neg hb] at h
        rcases hrc : readContBytes (utf8ExpectedBytes b) rest with ⟨taken, rem, ok⟩
        rw [hrc] at h
        dsimp only at h
        split at h
        · split at h
          · rename_i r hdec
            split at h
            · rw [hu] at h
              simp only [displayForm] at h
              exact ih rem _ _ (cur ++ b :: taken) res h e he
            · obtain ⟨l, hl, hres⟩ := Option.map_eq_some'.mp h
              rcases List.mem_append.mp (hres ▸ he) with hmem | hmem
              · split at hmem
                · simp only [List.mem_singleton] at hmem
                  subst hmem
                  assumption
                · simp at hmem
              · exact ih rem _ _ [] l hl e hmem
          · obtain ⟨l, hl, hres⟩ := Option.map_eq_some'.mp h
            rcases List.mem_append.mp (hres ▸ he) with hmem | hmem
            · split at hmem
              · simp only [List.mem_singleton] at hmem
                subst hmem
                assumption
              · simp at hmem
            · exact ih rem _ _ [] l hl e hmem
        · obtain ⟨l, hl, hres⟩ := Option.map_eq_some'.mp h
          rcases List.mem_append.mp (hres ▸ he) with hmem | hmem
          · split at hmem
            · simp only [List.mem_singleton] at hmem
              subst hmem
              assumption
            · simp at hmem
          · exact ih rem _ _ [] l hl e hmem

/-- The compilation loop reports the first malformed pattern with its
1-based position (relative to the `k` already consumed) and its original
text. -/
theorem compileLoop_first_error {π : Type} (compile : String → Option π) (ic : Bool) :
    ∀ (ps : List String) (k i : Nat) (hi : i < ps.length),
      (∀ j (hj : j < i),
        (compile (addCase ic (ps.get ⟨j, Nat.lt_trans hj hi⟩))).isSome = true) →
      compile (addCase ic (ps.get ⟨i, hi⟩)) = none →
      compileLoop compile ic ps k = .error ⟨k + i + 1, ps.get ⟨i, hi⟩⟩ := by
  intro ps
  induction ps with
  | nil => intro k i hi; simp at hi
  | cons p rest ih =>
    intro k i hi hpre hfail
    match i with
    | 0 =>
      simp only [List.get] at hfail
      simp [compileLoop, hfail]
    | i' + 1 =>
      have hp : (compile (addCase ic p)).isSome = true := hpre 0 (Nat.succ_pos i')
      obtain ⟨re, hre⟩ := Option.isSome_iff_exists.mp hp
      have hi' : i' < rest.length := Nat.lt_of_succ_lt_succ hi
      have hrec := ih (k + 1) i' hi'
        (fun j hj => hpre (j + 1) (Nat.succ_lt_succ hj)) hfail
      simp only [compileLoop, hre, hrec]
      congr 1
      simp
      omega

/-! ## Claims -/

/-- C1.  The claimed streaming/mapped equivalence fails on the code: on the
UTF-16LE surrogate pair `3D D8 00 DE` (U+1F600) with minimum length 1, the
streaming path (`ExtractStrings`, which combines surrogate pairs) emits the
UTF-8 bytes of U+1F600, while the mapped path (`extractStringsWithMmap`
dispatching to `extractUTF16FromBytes`, which never combines pairs)
classifies each lone surrogate unit as non-printable and emits nothing.
The two paths therefore do not produce the identical ordered sequence of
(bytes, offset) pairs. -/
theorem C1_streaming_mapped_divergence :
    ExtractStrings [0x3D, 0xD8, 0x00, 0xDE] cfg16LE = [([0xF0, 0x9F, 0x98, 0x80], 2)] ∧
    extractStringsWithMmapScan [0x3D, 0xD8, 0x00, 0xDE] cfg16LE = some [] ∧
    some (ExtractStrings [0x3D, 0xD8, 0x00, 0xDE] cfg16LE) ≠
      extractStringsWithMmapScan [0x3D, 0xD8, 0x00, 0xDE] cfg16LE := by
  decide

/-- C2 counterexample.  The claim says the extra 2-byte read happens if and
only if the decoded unit is a *high* surrogate.  The code instead tests
`utf16.IsSurrogate`, which also accepts low surrogates: on UTF-16LE input
whose first unit is the low surrogate U+DC00 followed by the unit U+0041
('A'), the scanner consumes the second unit as well (combining to U+FFFD),
so the 'A' never reaches classification on its own: the whole-scan run is
`�` followed by "BCDE", not "ABCDE". -/
theorem C2_surrogate_read_counterexample :
    isHighSurrogate ((decodeU16 .little 0x00 0xDC : Nat) : Int) = false ∧
    utf16ReadUnit .little 0x00 0xDC [0x41, 0x00] = (0xFFFD, [], true) ∧
    ExtractStrings
        [0x00, 0xDC, 0x41, 0x00, 0x42, 0x00, 0x43, 0x00, 0x44, 0x00, 0x45, 0x00]
        cfg16LE =
      [([0xEF, 0xBF, 0xBD, 0x42, 0x43, 0x44, 0x45], 2)] := by
  decide

/-- C2 amended.  In the UTF-16 scanners, the extra 2-byte read is attempted
whenever the decoded unit is any surrogate (high or low); when two more
bytes are available the two units are combined via `utf16.DecodeRune`
(yielding U+FFFD if they are not a valid high/low pair) and the extra unit
is consumed; a surrogate with fewer than two bytes remaining consumes
whatever single trailing byte exists without combining; a non-surrogate
unit consumes nothing beyond its own two bytes. -/
theorem C2_surrogate_read_amended (bo : ByteOrder) (b0 b1 : Nat) (rest : List Nat) :
    (utf16IsSurrogate ((decodeU16 bo b0 b1 : Nat) : Int) = false →
      utf16ReadUnit bo b0 b1 rest = (((decodeU16 bo b0 b1 : Nat) : Int), rest, false)) ∧
    (utf16IsSurrogate ((decodeU16 bo b0 b1 : Nat) : Int) = true →
      (∀ (b2 b3 : Nat) (rest2 : List Nat), rest = b2 :: b3 :: rest2 →
        utf16ReadUnit bo b0 b1 rest =
          (utf16DecodeRune ((decodeU16 bo b0 b1 : Nat) : Int)
            ((decodeU16 bo b2 b3 : Nat) : Int), rest2, true)) ∧
      (rest.length ≤ 1 →
        utf16ReadUnit bo b0 b1 rest = (((decodeU16 bo b0 b1 : Nat) : Int), [], false))) := by
  refine ⟨fun hf => ?_, fun ht => ⟨fun b2 b3 rest2 hr => ?_, fun hlen => ?_⟩⟩
  · simp [utf16ReadUnit, hf]
  · subst hr
    simp [utf16ReadUnit, ht]
  · match rest with
    | [] => simp [utf16ReadUnit, ht]
    | [x] => simp [utf16ReadUnit, ht]
    | a :: b :: t => simp at hlen

theorem C2_surrogate_read_amended_witness :
    utf16ReadUnit .big 0x00 0x41 [0x37] =
      (((decodeU16 .big 0x00 0x41 : Nat) : Int), [0x37], false) :=
  (C2_surrogate_read_amended .big 0x00 0x41 [0x37]).1 (by decide)

/-- C3.  The invariant "a run's recorded start offset is the offset of its
first accepted unit" is violated by `extractUTF16`: the source increments
`offset` by 2 *before* classification when a surrogate pair is combined, so
a run whose first accepted unit is the pair starting at byte 0 is reported
at offset 2 rather than 0. -/
theorem C3_surrogate_run_offset_bug :
    ExtractStrings [0x3D, 0xD8, 0x00, 0xDE] cfg16LE = [([0xF0, 0x9F, 0x98, 0x80], 2)] ∧
    (2 : Int) ≠ 0 := by
  decide

/-- C4 counterexample.  The claim says the minLength comparison counts
accepted input *characters*.  The code compares `len(currentString)`, the
accumulated *input bytes*: the input consisting of the two 3-byte
characters U+4E16 U+754C (2 characters, 6 bytes) is emitted under
minLength 3, though 2 < 3. -/
theorem C4_minLength_unit_counterexample :
    extractUTF8Aware [0xE4, 0xB8, 0x96, 0xE7, 0x95, 0x8C] cfgLoc3 =
      [([0xE4, 0xB8, 0x96, 0xE7, 0x95, 0x8C], 0)] ∧
    cfgLoc3.minLength = 3 ∧
    (utf8DecodeGroup [0xE4, 0xB8, 0x96]).isSome = true ∧
    (utf8DecodeGroup [0xE7, 0x95, 0x8C]).isSome = true := by
  decide

/-- C4 amended.  In the UTF-8-aware scanner the minLength test is measured
in accumulated *input bytes* (each accepted multi-byte sequence contributes
its full byte length), not in display-output bytes and not in characters:
in `locale` mode (where emitted bytes coincide with accumulated input
bytes) every emitted run carries at least `minLength` bytes, and in
`escape` mode the same two-character input whose 12-byte display form would
pass a display-measured threshold of 7 is not emitted because its 6 input
bytes fall short. -/
theorem C4_minLength_unit_amended :
    (∀ (data : List Nat) (cfg : Config), cfg.unicode = "locale" →
      ∀ e ∈ extractUTF8Aware data cfg, cfg.minLength ≤ (e.1.length : Int)) ∧
    extractUTF8Aware [0xE4, 0xB8, 0x96, 0xE7, 0x95, 0x8C] cfgEsc7 = [] := by
  constructor
  · intro data cfg hu e he
    exact utf8AwareLoopF_locale_minLength cfg hu (data.length + 1) data 0 0 [] _
      (utf8AwareLoopF_eq_some cfg data) e he
  · decide

theorem C4_minLength_unit_amended_witness :
    cfgLoc3.minLength ≤
      ((([0xE4, 0xB8, 0x96, 0xE7, 0x95, 0x8C] : List Nat), (0 : Int)).1.length : Int) :=
  C4_minLength_unit_amended.1 [0xE4, 0xB8, 0x96, 0xE7, 0x95, 0x8C] cfgLoc3 rfl
    ([0xE4, 0xB8, 0x96, 0xE7, 0x95, 0x8C], 0) (by decide)

/-- C5.  `ShouldPrintString`: any exclude-pattern hit forces false
(exclude absolute, checked first); with no exclude hit, a non-empty match
set answers true exactly when some match pattern hits, and with no patterns
at all the answer is true. -/
theorem C5_shouldPrintString_precedence (str : List Nat) (cfg : Config) :
    ((∃ p ∈ cfg.excludePatterns, p str = true) → ShouldPrintString str cfg = false) ∧
    ((∀ p ∈ cfg.excludePatterns, p str = false) →
      (cfg.matchPatterns ≠ [] →
        (ShouldPrintString str cfg = true ↔ ∃ p ∈ cfg.matchPatterns, p str = true)) ∧
      (cfg.matchPatterns = [] → ShouldPrintString str cfg = true)) := by
  constructor
  · rintro ⟨p, hp, hm⟩
    have hex : anyMatch cfg.excludePatterns str = true :=
      List.any_eq_true.mpr ⟨p, hp, hm⟩
    have hlen : 0 < cfg.excludePatterns.length :=
      List.length_pos.mpr (List.ne_nil_of_mem hp)
    simp [ShouldPrintString, hex, hlen]
  · intro hnone
    have hex : ¬ (0 < cfg.excludePatterns.length ∧
        anyMatch cfg.excludePatterns str = true) := by
      rintro ⟨-, hany⟩
      obtain ⟨p, hp, hm⟩ := List.any_eq_true.mp hany
      rw [hnone p hp] at hm
      exact Bool.false_ne_true hm
    constructor
    · intro hne
      have hlen : 0 < cfg.matchPatterns.length := List.length_pos.mpr hne
      unfold ShouldPrintString
      rw [if_neg hex, if_pos hlen]
      exact List.any_eq_true
    · intro he
      simp [ShouldPrintString, hex, he]

theorem C5_shouldPrintString_precedence_witness :
    ShouldPrintString [1, 2, 3] cfgBothPatterns = false :=
  (C5_shouldPrintString_precedence [1, 2, 3] cfgBothPatterns).1
    ⟨fun s => decide (s.length = 3), by simp [cfgBothPatterns], by decide⟩

theorem isPrintableASCII_eq_spec (b : Nat) (a w : Bool) :
    isPrintableASCII b a w = isPrintableByteSpec b a w := by
  unfold isPrintableASCII isPrintableByteSpec
  by_cases h1 : w = true ∧ (b = 9 ∨ b = 10 ∨ b = 13 ∨ b = 11 ∨ b = 12)
  · rw [if_pos h1]; symm; rw [decide_eq_true_eq]
    exact Or.inr (Or.inr h1)
  · rw [if_neg h1]
    by_cases h2 : 32 ≤ b ∧ b ≤ 126
    · rw [if_pos h2]; symm; rw [decide_eq_true_eq]
      exact Or.inl h2
    · rw [if_neg h2]
      by_cases h3 : a = true ∧ 128 ≤ b
      · rw [if_pos h3]; symm; rw [decide_eq_true_eq]
        exact Or.inr (Or.inl h3)
      · rw [if_neg h3]; symm; rw [decide_eq_false_iff_not]
        rintro (h | h | h)
        · exact h2 h
        · exact h3 h
        · exact h1 h

theorem isPrintableRune_eq_spec (r : Int) (w : Bool) :
    isPrintableRune r w = isPrintableCodepointSpec r w := by
  unfold isPrintableRune isPrintableCodepointSpec
  by_cases h1 : w = true ∧ (r = 9 ∨ r = 10 ∨ r = 13 ∨ r = 11 ∨ r = 12)
  · rw [if_pos h1]; symm; rw [decide_eq_true_eq]
    exact Or.inr (Or.inr (Or.inr (Or.inr h1)))
  · rw [if_neg h1]
    by_cases h2 : 32 ≤ r ∧ r ≤ 126
    · rw [if_pos h2]; symm; rw [decide_eq_true_eq]
      exact Or.inl h2
    · rw [if_neg h2]
      by_cases h3 : 0xA0 ≤ r ∧ r ≤ 0xD7FF
      · rw [if_pos h3]; symm; rw [decide_eq_true_eq]
        exact Or.inr (Or.inl h3)
      · rw [if_neg h3]
        by_cases h4 : 0xE000 ≤ r ∧ r ≤ 0xFFFD
        · rw [if_pos h4]; symm; rw [decide_eq_true_eq]
          exact Or.inr (Or.inr (Or.inl h4))
        · rw [if_neg h4]
          by_cases h5 : 0x10000 ≤ r ∧ r ≤ 0x10FFFF
          · rw [if_pos h5]; symm; rw [decide_eq_true_eq]
            exact Or.inr (Or.inr (Or.inr (Or.inl h5)))
          · rw [if_neg h5]; symm; rw [decide_eq_false_iff_not]
            rintro (h | h | h | h | h)
            · exact h2 h
            · exact h3 h
            · exact h4 h
            · exact h5 h
            · exact h1 h

/-- C6.  Both printability classifiers are total Lean functions and agree
extensionally with the spec's reference rules; in particular no
surrogate-range codepoint is ever printable. -/
theorem C6_printability_classifiers :
    (∀ (b : Nat) (a w : Bool), isPrintableASCII b a w = isPrintableByteSpec b a w) ∧
    (∀ (r : Int) (w : Bool), isPrintableRune r w = isPrintableCodepointSpec r w) ∧
    (∀ (r : Int) (w : Bool), 0xD800 ≤ r → r ≤ 0xDFFF → isPrintableRune r w = false) := by
  refine ⟨isPrintableASCII_eq_spec, isPrintableRune_eq_spec, ?_⟩
  intro r w h1 h2
  rw [isPrintableRune_eq_spec]
  unfold isPrintableCodepointSpec
  simp only [decide_eq_false_iff_not]
  rintro (⟨a, b⟩ | ⟨a, b⟩ | ⟨a, b⟩ | ⟨a, b⟩ | ⟨hw, (h | h | h | h | h)⟩) <;> omega

theorem C6_printability_classifiers_witness :
    isPrintableRune 0xD800 false = false :=
  C6_printability_classifiers.2.2 0xD800 false (by decide) (by decide)

/-- C7.  The UTF-16 and UTF-32 streaming loops deliver a result within
`data.length + 1` iterations on every finite input (each iteration consumes
at least one unit, and a dangling partial unit only flushes and stops); a
one-byte UTF-16 input produces zero emissions for any positive minimum
length; and a dangling trailing fragment after a pending run flushes that
run exactly once, for UTF-16 and UTF-32 alike. -/
theorem C7_utf16_utf32_termination :
    (∀ (cfg : Config) (bo : ByteOrder) (data : List Nat),
      utf16LoopF cfg bo (data.length + 1) data 0 0 [] = some (extractUTF16 data cfg bo)) ∧
    (∀ (cfg : Config) (bo : ByteOrder) (data : List Nat),
      utf32LoopF cfg bo (data.length + 1) data 0 0 [] = some (extractUTF32 data cfg bo)) ∧
    (∀ (cfg : Config) (bo : ByteOrder) (b : Nat), 1 ≤ cfg.minLength →
      extractUTF16 [b] cfg bo = []) ∧
    extractUTF16 [0x68, 0x00, 0x65, 0x00, 0x6C, 0x00, 0x6C, 0x00, 0x6F, 0x00, 0x21]
      cfgL4 .little = [([0x68, 0x65, 0x6C, 0x6C, 0x6F], 0)] ∧
    extractUTF32
      [0x74, 0, 0, 0, 0x65, 0, 0, 0, 0x73, 0, 0, 0, 0x74, 0, 0, 0, 0xFF, 0xFF]
      cfgL4 .little = [([0x74, 0x65, 0x73, 0x74], 0)] := by
  refine ⟨utf16LoopF_eq_some, utf32LoopF_eq_some, ?_, by decide, by decide⟩
  intro cfg bo b h
  have e : extractUTF16 [b] cfg bo =
      (if cfg.minLength ≤ (([] : List Int).length : Int)
        then [(runesToUTF8 [], 0)] else []) := rfl
  rw [e, if_neg (by simp only [List.length_nil, Nat.cast_zero]; omega)]

theorem C7_utf16_utf32_termination_witness :
    extractUTF16 [0x41] cfg16LE .little = [] :=
  C7_utf16_utf32_termination.2.2.1 cfg16LE .little 0x41 (by decide)

/-- C8.  `CompilePatterns` compiles every pattern eagerly and, at the first
malformed pattern, aborts with an error carrying the offending pattern's
1-based index and its original (unprefixed) text and no compiled set; in
the `main` pipeline this happens before any input is scanned, and the
pattern error is the only error the pipeline's type can abort with. -/
theorem C8_compilePatterns_fail_fast {π : Type} (compile : String → Option π)
    (patterns : List String) (ignoreCase : Bool) (i : Nat) (hi : i < patterns.length)
    (hpre : ∀ j (hj : j < i),
      (compile (addCase ignoreCase (patterns.get ⟨j, Nat.lt_trans hj hi⟩))).isSome = true)
    (hfail : compile (addCase ignoreCase (patterns.get ⟨i, hi⟩)) = none) :
    CompilePatterns compile patterns ignoreCase =
      .error ⟨i + 1, patterns.get ⟨i, hi⟩⟩ ∧
    ∀ (toPattern : π → Pattern) (exclPats : List String) (cfg0 : Config)
      (files : List (List Nat)),
      runMain toPattern compile patterns exclPats ignoreCase cfg0 files =
        .error ⟨i + 1, patterns.get ⟨i, hi⟩⟩ := by
  have hne : ¬ patterns.length = 0 := by omega
  have hcl := compileLoop_first_error compile ignoreCase patterns 0 i hi hpre hfail
  have hcp : CompilePatterns compile patterns ignoreCase =
      .error ⟨i + 1, patterns.get ⟨i, hi⟩⟩ := by
    unfold CompilePatterns
    rw [if_neg hne, hcl]
    simp
  refine ⟨hcp, ?_⟩
  intro toPattern exclPats cfg0 files
  have hpos : 0 < patterns.length := by omega
  simp only [runMain, if_pos hpos, hcp]

theorem C8_compilePatterns_fail_fast_witness :
    CompilePatterns compileRejectingBad ["ok", "b@d"] false =
      .error ⟨1 + 1, (["ok", "b@d"] : List String).get ⟨1, by decide⟩⟩ :=
  (C8_compilePatterns_fail_fast compileRejectingBad ["ok", "b@d"] false 1 (by decide)
    (fun j hj => by
      have hj0 : j = 0 := by omega
      subst hj0
      show (compileRejectingBad (addCase false "ok")).isSome = true
      decide)
    (by
      show compileRejectingBad (addCase false "b@d") = none
      decide)).1

/-- C9.  The two concrete 7-bit ASCII scenarios, on both the streaming
scanner and the byte-slice scanner of the mapped path: "hello\x00world\x00"
emits "hello" at 0 then "world" at 6; "ab\x00test\x00" emits only "test"
at 3, the two-byte run being discarded. -/
theorem C9_ascii_concrete_scans :
    ExtractStrings [104, 101, 108, 108, 111, 0, 119, 111, 114, 108, 100, 0] cfgA =
      [([104, 101, 108, 108, 111], 0), ([119, 111, 114, 108, 100], 6)] ∧
    ExtractStrings [97, 98, 0, 116, 101, 115, 116, 0] cfgA =
      [([116, 101, 115, 116], 3)] ∧
    extractASCIIFromBytes [104, 101, 108, 108, 111, 0, 119, 111, 114, 108, 100, 0]
      0 cfgA false =
      [([104, 101, 108, 108, 111], 0), ([119, 111, 114, 108, 100], 6)] ∧
    extractASCIIFromBytes [97, 98, 0, 116, 101, 115, 116, 0] 0 cfgA false =
      [([116, 101, 115, 116], 3)] := by
  decide

/-- C10.  With Unicode mode locale/escape/hex/highlight, `extractASCII`
delegates to the UTF-8-aware scanner before `allow8bit` is consulted, and
that scanner classifies standalone bytes with `allow8bit` fixed to false;
hence even under encoding "S" the byte 0xA0 (no valid UTF-8 sequence
starts with it) terminates the current run. -/
theorem C10_unicode_delegation :
    (∀ (data : List Nat) (cfg : Config) (allow8bit : Bool),
      (cfg.unicode = "locale" ∨ cfg.unicode = "escape" ∨ cfg.unicode = "hex" ∨
        cfg.unicode = "highlight") →
      extractASCII data cfg allow8bit = extractUTF8Aware data cfg) ∧
    ExtractStrings [97, 98, 99, 100, 0xA0, 101, 102, 103, 104] cfgSloc =
      [([97, 98, 99, 100], 0), ([101, 102, 103, 104], 5)] := by
  constructor
  · intro data cfg allow8bit h
    have hne : cfg.unicode ≠ "default" ∧ cfg.unicode ≠ "invalid" ∧ cfg.unicode ≠ "" := by
      rcases h with h | h | h | h <;> rw [h] <;> exact ⟨by decide, by decide, by decide⟩
    unfold extractASCII
    rw [if_pos hne]
  · decide

theorem C10_unicode_delegation_witness :
    extractASCII [0xFF] cfgSloc true = extractUTF8Aware [0xFF] cfgSloc :=
  C10_unicode_delegation.1 [0xFF] cfgSloc true (Or.inl rfl)

end Txtr
